import Mathlib

/-!
Verification development for the goride ride-hailing backend
(app/services.py, app/routes.py, app/models.py), shallowly embedded in Lean.

Coordinates, timestamps and fares are modelled as real numbers; database
tables as lists of records; fallible lookups as Option; the Redis cache and
the driver-discovery HTTP call as explicit oracle parameters.
-/

namespace GoRide

/-! Status string constants, from app/models.py. -/

def RIDE_SEARCHING : String := "searching"

def RIDE_ASSIGNED : String := "assigned"

def RIDE_NO_DRIVER : String := "no_driver"

def RIDE_CANCELLED : String := "cancelled"

def ASSIGN_OFFERED : String := "offered"

def ASSIGN_DECLINED : String := "declined"

def ASSIGN_ACCEPTED : String := "accepted"

def ASSIGN_EXPIRED : String := "expired"

def TRIP_ONGOING : String := "ongoing"

def TRIP_PAUSED : String := "paused"

def TRIP_COMPLETED : String := "completed"

def PAY_PENDING : String := "pending"

def PAY_SUCCESS : String := "success"

def PAY_FAILED : String := "failed"

/-! Haversine distance, from services.haversine_km (app/services.py lines 14-25).
Python math.radians(x) is x * pi / 180. -/

noncomputable def radians (x : ℝ) : ℝ := x * (Real.pi / 180)

noncomputable def haversine_km (a b : ℝ × ℝ) : ℝ :=
  let lat1 := radians a.1
  let lon1 := radians a.2
  let lat2 := radians b.1
  let lon2 := radians b.2
  let dlon := lon2 - lon1
  let dlat := lat2 - lat1
  let h := Real.sin (dlat / 2) ^ 2 +
    Real.cos lat1 * Real.cos lat2 * Real.sin (dlon / 2) ^ 2
  let c := 2 * Real.arcsin (Real.sqrt h)
  6371 * c

/-! Model of the Redis driver hash read by services.get_driver_location
(app/services.py lines 71-97).  A stored field value either parses as a
float (RVal.num) or makes Python float() raise (RVal.bad); a field may also
be absent from the hash, in which case data.get returns None and float(None)
raises as well.  An absent or empty hash is modelled as Option.none. -/

inductive RVal where
  | num (q : ℚ)
  | bad
deriving DecidableEq

def parseFloat : RVal → Option ℚ
  | .num q => some q
  | .bad => none

structure DriverHash where
  lat : Option RVal
  lon : Option RVal
  timestamp : Option RVal
deriving DecidableEq

/-- Reads lat and lon out of the hash: float(data.get(field)) raises when the
field is absent or malformed; the raise is modelled as Except.error. -/
def readLatLon (d : DriverHash) : Except Unit (Option (ℚ × ℚ)) :=
  match d.lat, d.lon with
  | some lv, some lov =>
    match parseFloat lv, parseFloat lov with
    | some a, some b => Except.ok (some (a, b))
    | _, _ => Except.error ()
  | _, _ => Except.error ()

/-- Body of the try block of get_driver_location: freshness check on the
timestamp field when present, then the lat/lon read.  A stale entry returns
None after invalidating the cache (the invalidation is a cache side effect
outside this state). -/
def getLocBody (now maxAge : ℚ) (d : DriverHash) : Except Unit (Option (ℚ × ℚ)) :=
  match d.timestamp with
  | some tv =>
    match parseFloat tv with
    | none => Except.error ()
    | some ts =>
      if now - ts > maxAge then Except.ok none
      else readLatLon d
  | none => readLatLon d

/-- services.get_driver_location: the surrounding except-handler turns every
raise inside the try block into a None result. -/
def get_driver_location (now maxAge : ℚ) (data : Option DriverHash) : Option (ℚ × ℚ) :=
  match data with
  | none => none
  | some d =>
    match getLocBody now maxAge d with
    | Except.error _ => none
    | Except.ok v => v

/-! Model of services.find_nearest_driver (app/services.py lines 100-138).
The GEORADIUS reply is a list of [member, dist] entries sorted by ascending
distance (the ASC flag); a raised redis error is modelled as Option.none.
The member field is modelled as Option Int: none when int() fails on it.
The re-verification lookup get_driver_location is abstracted as an oracle
locs from driver id to an optional fresh position. -/

structure GeoEntry where
  member : Option ℤ
  dist : ℝ

open Classical in
/-- Loop body of find_nearest_driver: iterate the GEORADIUS reply in order,
skip unparseable members and absent or stale positions, and return the first
driver whose re-verified Haversine distance from pickup is within maxKm. -/
noncomputable def scanEntries (pickup : ℝ × ℝ) (maxKm : ℝ)
    (locs : ℤ → Option (ℝ × ℝ)) : List GeoEntry → Option ℤ
  | [] => none
  | e :: rest =>
    match e.member with
    | none => scanEntries pickup maxKm locs rest
    | some did =>
      match locs did with
      | none => scanEntries pickup maxKm locs rest
      | some loc =>
        if haversine_km pickup loc ≤ maxKm then some did
        else scanEntries pickup maxKm locs rest

/-- services.find_nearest_driver: a redis failure (georadius = none) and an
empty reply both give None; otherwise scan the candidates in ascending
distance order. -/
noncomputable def find_nearest_driver (georadius : Option (List GeoEntry))
    (locs : ℤ → Option (ℝ × ℝ)) (pickup : ℝ × ℝ) (maxKm : ℝ) : Option ℤ :=
  match georadius with
  | none => none
  | some res => scanEntries pickup maxKm locs res

/-- Specification-side predicate: a candidate entry qualifies when its member
parses, its position re-verifies as fresh, and that position is within maxKm
of pickup by Haversine. -/
def qualifies (pickup : ℝ × ℝ) (maxKm : ℝ) (locs : ℤ → Option (ℝ × ℝ))
    (e : GeoEntry) : Prop :=
  ∃ did loc, e.member = some did ∧ locs did = some loc ∧
    haversine_km pickup loc ≤ maxKm

/-- Specification-side predicate: d is the member of the first qualifying
candidate of the reply list. -/
def firstQualifying (pickup : ℝ × ℝ) (maxKm : ℝ) (locs : ℤ → Option (ℝ × ℝ))
    (res : List GeoEntry) (d : ℤ) : Prop :=
  ∃ i, ∃ h : i < res.length,
    (res.get ⟨i, h⟩).member = some d ∧ qualifies pickup maxKm locs (res.get ⟨i, h⟩) ∧
    ∀ j, ∀ hj : j < res.length, j < i → ¬ qualifies pickup maxKm locs (res.get ⟨j, hj⟩)

/-- Concrete location oracle used in closed witness statements: driver 1 is
cached at the origin. -/
noncomputable def demoLocs : ℤ → Option (ℝ × ℝ) :=
  fun i => if i = 1 then some ((0 : ℝ), (0 : ℝ)) else none

/-! Database model: the tables of app/models.py as lists of records, with
id sequences held in the state.  Numeric SQL Float columns are real numbers;
DateTime columns are real-valued timestamps in seconds. -/

structure RideRec where
  id : ℤ
  rider_id : Option ℤ
  pickup : ℝ × ℝ
  destination : ℝ × ℝ
  tier : String
  payment_method : String
  status : String

structure AssignRec where
  id : ℤ
  ride_id : ℤ
  driver_id : ℤ
  status : String

structure TripRec where
  id : ℤ
  ride_id : ℤ
  driver_id : ℤ
  start_at : Option ℝ
  end_at : Option ℝ
  distance_km : ℝ
  duration_sec : ℤ
  fare : ℝ
  status : String

structure ProviderResp where
  provider : String
  payRef : String
deriving DecidableEq

structure PaymentRec where
  id : ℤ
  trip_id : ℤ
  amount : ℝ
  status : String
  provider_response : Option ProviderResp

structure RideOut where
  id : ℤ
  status : String
  pickup : ℝ × ℝ
  destination : ℝ × ℝ

structure DbState where
  rides : List RideRec
  assignments : List AssignRec
  trips : List TripRec
  payments : List PaymentRec
  idem : List (String × RideOut)
  next_ride_id : ℤ
  next_assign_id : ℤ
  next_trip_id : ℤ
  next_payment_id : ℤ

def emptyDb : DbState := ⟨[], [], [], [], [], 1, 1, 1, 1⟩

def lookupRide : List RideRec → ℤ → Option RideRec
  | [], _ => none
  | r :: rest, i => if r.id = i then some r else lookupRide rest i

def lookupTrip : List TripRec → ℤ → Option TripRec
  | [], _ => none
  | t :: rest, i => if t.id = i then some t else lookupTrip rest i

/-- Select on assignments with WHERE id = aid AND driver_id = did, as issued
by services.accept_assignment. -/
def lookupAssign2 : List AssignRec → ℤ → ℤ → Option AssignRec
  | [], _, _ => none
  | a :: rest, aid, did =>
    if a.id = aid ∧ a.driver_id = did then some a else lookupAssign2 rest aid did

def lookupIdem : List (String × RideOut) → String → Option RideOut
  | [], _ => none
  | p :: rest, key => if p.1 = key then some p.2 else lookupIdem rest key

def updateRideStatus : List RideRec → ℤ → String → List RideRec
  | [], _, _ => []
  | r :: rest, i, s =>
    (if r.id = i then { r with status := s } else r) :: updateRideStatus rest i s

def updateAssignStatus : List AssignRec → ℤ → String → List AssignRec
  | [], _, _ => []
  | a :: rest, i, s =>
    (if a.id = i then { a with status := s } else a) :: updateAssignStatus rest i s

/-- UPDATE trips SET ... WHERE id = i, with the full updated row t2 already
computed from the selected row. -/
def setTrip : List TripRec → ℤ → TripRec → List TripRec
  | [], _, _ => []
  | t :: rest, i, t2 => (if t.id = i then t2 else t) :: setTrip rest i t2

/-- Outcome of the POST to the driver-discovery service in routes.create_ride:
fail is a raised exception or a non-200 status; ok carries the driver_id field
of the 200 response body, which may be null. -/
inductive MatchResult where
  | fail
  | ok (driver_id : Option ℤ)

structure RideReq where
  rider_id : Option ℤ
  pickup : ℝ × ℝ
  destination : ℝ × ℝ
  tier : String
  payment_method : String

/-- services.create_assignment: insert the assignment in Offered and set the
ride to Assigned, in one transaction. -/
def create_assignment (st : DbState) (ride_id driver_id : ℤ) : ℤ × DbState :=
  let aid := st.next_assign_id
  (aid,
   { st with
     assignments := st.assignments ++ [⟨aid, ride_id, driver_id, ASSIGN_OFFERED⟩],
     rides := updateRideStatus st.rides ride_id RIDE_ASSIGNED,
     next_assign_id := aid + 1 })

/-- Body of routes.create_ride past the idempotency check: insert the ride in
Searching, call discovery, create an assignment when a non-falsy driver_id
comes back (Python: if driver_id), otherwise leave the ride Searching; then
store the response under the idempotency key when one was sent. -/
def create_ride_core (req : RideReq) (key : Option String) (m : MatchResult)
    (st : DbState) : RideOut × DbState :=
  let rid := st.next_ride_id
  let st1 := { st with
    rides := st.rides ++ [⟨rid, req.rider_id, req.pickup, req.destination,
      req.tier, req.payment_method, RIDE_SEARCHING⟩],
    next_ride_id := rid + 1 }
  let step2 : String × DbState :=
    match m with
    | .ok (some did) =>
      if did = 0 then (RIDE_SEARCHING, st1)
      else (RIDE_ASSIGNED, (create_assignment st1 rid did).2)
    | .ok none => (RIDE_SEARCHING, st1)
    | .fail => (RIDE_SEARCHING, st1)
  let out : RideOut := ⟨rid, step2.1, req.pickup, req.destination⟩
  let st3 :=
    match key with
    | some k => { step2.2 with idem := step2.2.idem ++ [(k, out)] }
    | none => step2.2
  (out, st3)

/-- routes.create_ride: replay the stored response when the idempotency key
already has one, else run the body. -/
def create_ride (req : RideReq) (key : Option String) (m : MatchResult)
    (st : DbState) : RideOut × DbState :=
  match key with
  | some k =>
    match lookupIdem st.idem k with
    | some resp => (resp, st)
    | none => create_ride_core req (some k) m st
  | none => create_ride_core req none m st

/-- services.accept_assignment: select the assignment by id and driver in one
transaction; None when absent or not Offered; otherwise mark it Accepted and
open an Ongoing trip. -/
def accept_assignment (st : DbState) (now : ℝ) (driver_id assignment_id : ℤ) :
    Option TripRec × DbState :=
  match lookupAssign2 st.assignments assignment_id driver_id with
  | none => (none, st)
  | some a =>
    if a.status = ASSIGN_OFFERED then
      let tid := st.next_trip_id
      let trip : TripRec :=
        ⟨tid, a.ride_id, driver_id, some now, none, 0, 0, 0, TRIP_ONGOING⟩
      (some trip,
       { st with
         assignments := updateAssignStatus st.assignments assignment_id ASSIGN_ACCEPTED,
         trips := st.trips ++ [trip],
         next_trip_id := tid + 1 })
    else (none, st)

/-- Python int() applied to a float: truncation toward zero. -/
noncomputable def pyInt (x : ℝ) : ℤ := if 0 ≤ x then ⌊x⌋ else -⌊-x⌋

/-- services.end_trip: look the trip up (None when absent, with no status
check); recompute distance from the fresh cached position of the driver when an end
location is given; truncate the elapsed seconds; apply the fare formula;
complete the trip and insert a Pending payment in one transaction. -/
noncomputable def end_trip (st : DbState) (cache : ℤ → Option (ℝ × ℝ)) (now : ℝ)
    (trip_id : ℤ) (end_loc : Option (ℝ × ℝ)) : Option TripRec × DbState :=
  match lookupTrip st.trips trip_id with
  | none => (none, st)
  | some trip =>
    let end_at := now
    let distance_km :=
      match end_loc with
      | none => trip.distance_km
      | some el =>
        match cache trip.driver_id with
        | none => trip.distance_km
        | some start_loc => haversine_km start_loc el
    let duration_sec : ℤ :=
      match trip.start_at with
      | none => 0
      | some s => pyInt (end_at - s)
    let fare : ℝ := 2.0 + distance_km * 1.5 + ((duration_sec : ℝ) / 60.0) * 0.2
    let trip2 : TripRec := { trip with
      end_at := some end_at, distance_km := distance_km,
      duration_sec := duration_sec, fare := fare, status := TRIP_COMPLETED }
    let pid := st.next_payment_id
    (some trip2,
     { st with
       trips := setTrip st.trips trip_id trip2,
       payments := st.payments ++ [⟨pid, trip_id, fare, PAY_PENDING, none⟩],
       next_payment_id := pid + 1 })

/-- services._simulate_payment: the UPDATE issued by the settlement worker on the payment
row, unconditional in the source. -/
def simulate_payment_update (p : PaymentRec) : PaymentRec :=
  { p with status := PAY_SUCCESS,
           provider_response := some ⟨"simulated", "pay_" ++ toString p.id⟩ }

/-- Payment records reachable by the program: created Pending by end_trip,
then settled any number of times by the worker (end_trip and trigger_payment
only schedule the worker; nothing else writes payment rows). -/
inductive PayReachable : PaymentRec → Prop where
  | created (p : PaymentRec) (h : p.status = PAY_PENDING) : PayReachable p
  | settled (p : PaymentRec) (h : PayReachable p) : PayReachable (simulate_payment_update p)

/-! Concrete data for closed statements. -/

noncomputable def demoReq : RideReq :=
  ⟨some 100, ((0 : ℝ), (0 : ℝ)), ((1 : ℝ), (1 : ℝ)), "standard", "card"⟩

noncomputable def demoTrip : TripRec :=
  ⟨1, 1, 7, some 0, none, 3, 0, 0, TRIP_ONGOING⟩

noncomputable def demoCompletedTrip : TripRec :=
  ⟨1, 1, 7, some 0, some 60, 3, 60, 6.8, TRIP_COMPLETED⟩

noncomputable def demoPayment : PaymentRec := ⟨1, 1, 6.8, PAY_PENDING, none⟩

/-- State holding one already-completed trip and its single settled payment. -/
noncomputable def stCompleted : DbState :=
  { emptyDb with
    trips := [demoCompletedTrip],
    payments := [⟨1, 1, 6.8, PAY_SUCCESS, none⟩],
    next_trip_id := 2, next_payment_id := 2 }

/-- State holding one assignment offered to driver 7. -/
noncomputable def stOffered : DbState :=
  { emptyDb with
    rides := [⟨1, some 100, ((0 : ℝ), (0 : ℝ)), ((1 : ℝ), (1 : ℝ)), "standard",
      "card", RIDE_ASSIGNED⟩],
    assignments := [⟨1, 1, 7, ASSIGN_OFFERED⟩],
    next_ride_id := 2, next_assign_id := 2 }

/-- State holding one ongoing trip that started at timestamp 0 with 3 km
already recorded. -/
noncomputable def stOngoing : DbState :=
  { emptyDb with trips := [demoTrip], next_trip_id := 2 }

/-- Trace of operations of the program itself: create a ride matched to driver 7,
accept the offer, then end the resulting trip twice through the unguarded
end_trip. -/
noncomputable def stTrace1 : DbState :=
  (create_ride demoReq none (MatchResult.ok (some 7)) emptyDb).2

noncomputable def stTrace2 : DbState := (accept_assignment stTrace1 0 7 1).2

noncomputable def stTrace3 : DbState := (end_trip stTrace2 (fun _ => none) 60 1 none).2

noncomputable def stTrace4 : DbState := (end_trip stTrace3 (fun _ => none) 120 1 none).2

/-! Theorems. -/

theorem haversine_self (a : ℝ × ℝ) : haversine_km a a = 0 := by
  simp [haversine_km]

theorem haversine_comm (a b : ℝ × ℝ) : haversine_km a b = haversine_km b a := by
  unfold haversine_km
  have hsin : ∀ x y : ℝ, Real.sin ((x - y) / 2) ^ 2 = Real.sin ((y - x) / 2) ^ 2 := by
    intro x y
    rw [show (x - y) / 2 = -((y - x) / 2) by ring, Real.sin_neg, neg_sq]
  simp only
  rw [hsin (radians b.1) (radians a.1), hsin (radians b.2) (radians a.2),
    mul_comm (Real.cos (radians b.1)) (Real.cos (radians a.1))]

/-- C9: haversine_km is symmetric in its two arguments, and the distance from
any point to itself is zero. -/
theorem haversine_symm_and_self (a b : ℝ × ℝ) :
    haversine_km a b = haversine_km b a ∧ haversine_km a a = 0 :=
  ⟨haversine_comm a b, haversine_self a⟩

theorem readLatLon_bad (d : DriverHash)
    (h : d.lat = some RVal.bad ∨ d.lon = some RVal.bad) :
    readLatLon d = Except.error () := by
  rcases h with h | h
  · cases hlon : d.lon <;> simp [readLatLon, h, hlon, parseFloat]
  · cases hlat : d.lat with
    | none => simp [readLatLon, hlat]
    | some lv => cases lv <;> simp [readLatLon, hlat, h, parseFloat]

theorem getLoc_badLatLon (now maxAge : ℚ) (d : DriverHash)
    (h : d.lat = some RVal.bad ∨ d.lon = some RVal.bad) :
    get_driver_location now maxAge (some d) = none := by
  have hrl := readLatLon_bad d h
  cases hts : d.timestamp with
  | none => simp [get_driver_location, getLocBody, hts, hrl]
  | some tv =>
    cases tv with
    | bad => simp [get_driver_location, getLocBody, hts, parseFloat]
    | num ts =>
      by_cases hst : now - ts > maxAge
      · simp [get_driver_location, getLocBody, hts, parseFloat, hst]
      · simp [get_driver_location, getLocBody, hts, parseFloat, hst, hrl]

/-- C10: get_driver_location is total — it yields None or a coordinate pair on
every input; a missing hash yields None, a stale timestamp yields None, and a
malformed lat, lon or timestamp field yields None. -/
theorem get_driver_location_total (now maxAge : ℚ) (data : Option DriverHash) :
    (get_driver_location now maxAge data = none ∨
      ∃ p : ℚ × ℚ, get_driver_location now maxAge data = some p) ∧
    (data = none → get_driver_location now maxAge data = none) ∧
    (∀ d ts, data = some d → d.timestamp = some (RVal.num ts) → now - ts > maxAge →
      get_driver_location now maxAge data = none) ∧
    (∀ d, data = some d →
      (d.lat = some RVal.bad ∨ d.lon = some RVal.bad ∨ d.timestamp = some RVal.bad) →
      get_driver_location now maxAge data = none) := by
  refine ⟨?_, ?_, ?_, ?_⟩
  · cases data with
    | none => exact Or.inl rfl
    | some d =>
      rcases h : getLocBody now maxAge d with e | v
      · exact Or.inl (by simp [get_driver_location, h])
      · cases v with
        | none => exact Or.inl (by simp [get_driver_location, h])
        | some p => exact Or.inr ⟨p, by simp [get_driver_location, h]⟩
  · intro h; subst h; rfl
  · intro d ts hd hts hstale
    subst hd
    simp [get_driver_location, getLocBody, hts, parseFloat, hstale]
  · intro d hd hbad
    subst hd
    rcases hbad with hb | hb | hb
    · exact getLoc_badLatLon now maxAge d (Or.inl hb)
    · exact getLoc_badLatLon now maxAge d (Or.inr hb)
    · simp [get_driver_location, getLocBody, hb, parseFloat]

/-- C10 witness: a hash whose lat field is malformed yields None, at concrete
inputs. -/
theorem get_driver_location_total_witness :
    get_driver_location 0 300
      (some ⟨some RVal.bad, some (RVal.num 1), some (RVal.num 0)⟩) = none :=
  (get_driver_location_total 0 300
    (some ⟨some RVal.bad, some (RVal.num 1), some (RVal.num 0)⟩)).2.2.2
    ⟨some RVal.bad, some (RVal.num 1), some (RVal.num 0)⟩ rfl (Or.inl rfl)

theorem not_qualifies_member_none (pickup : ℝ × ℝ) (maxKm : ℝ)
    (locs : ℤ → Option (ℝ × ℝ)) (e : GeoEntry) (hm : e.member = none) :
    ¬ qualifies pickup maxKm locs e := by
  rintro ⟨did, loc, hmem, -, -⟩
  rw [hm] at hmem
  exact Option.noConfusion hmem

theorem not_qualifies_stale (pickup : ℝ × ℝ) (maxKm : ℝ)
    (locs : ℤ → Option (ℝ × ℝ)) (e : GeoEntry) (did : ℤ)
    (hm : e.member = some did) (hl : locs did = none) :
    ¬ qualifies pickup maxKm locs e := by
  rintro ⟨did2, loc, hmem, hloc, -⟩
  rw [hm] at hmem
  obtain rfl : did = did2 := Option.some_injective _ hmem
  rw [hl] at hloc
  exact Option.noConfusion hloc

theorem not_qualifies_far (pickup : ℝ × ℝ) (maxKm : ℝ)
    (locs : ℤ → Option (ℝ × ℝ)) (e : GeoEntry) (did : ℤ) (loc : ℝ × ℝ)
    (hm : e.member = some did) (hl : locs did = some loc)
    (hfar : ¬ haversine_km pickup loc ≤ maxKm) :
    ¬ qualifies pickup maxKm locs e := by
  rintro ⟨did2, loc2, hmem, hloc, hle⟩
  rw [hm] at hmem
  obtain rfl : did = did2 := Option.some_injective _ hmem
  rw [hl] at hloc
  obtain rfl : loc = loc2 := Option.some_injective _ hloc
  exact hfar hle

theorem firstQualifying_head (pickup : ℝ × ℝ) (maxKm : ℝ)
    (locs : ℤ → Option (ℝ × ℝ)) (e : GeoEntry) (rest : List GeoEntry) (d : ℤ)
    (hm : e.member = some d) (hq : qualifies pickup maxKm locs e) :
    firstQualifying pickup maxKm locs (e :: rest) d := by
  refine ⟨0, Nat.succ_pos _, ?_, ?_, ?_⟩
  · simpa using hm
  · simpa using hq
  · intro j hj hj0
    exact absurd hj0 (Nat.not_lt_zero j)

theorem firstQualifying_cons (pickup : ℝ × ℝ) (maxKm : ℝ)
    (locs : ℤ → Option (ℝ × ℝ)) (e : GeoEntry) (rest : List GeoEntry) (d : ℤ)
    (hne : ¬ qualifies pickup maxKm locs e)
    (h : firstQualifying pickup maxKm locs rest d) :
    firstQualifying pickup maxKm locs (e :: rest) d := by
  obtain ⟨i, hi, hmem, hq, hmin⟩ := h
  refine ⟨i + 1, Nat.succ_lt_succ hi, ?_, ?_, ?_⟩
  · simpa using hmem
  · simpa using hq
  · intro j hj hlt
    cases j with
    | zero => simpa using hne
    | succ k =>
      have hk : k < rest.length := Nat.lt_of_succ_lt_succ hj
      have hki : k < i := Nat.lt_of_succ_lt_succ hlt
      simpa using hmin k hk hki

theorem scanEntries_stale (pickup : ℝ × ℝ) (maxKm : ℝ)
    (locs : ℤ → Option (ℝ × ℝ)) (res : List GeoEntry)
    (h : ∀ e ∈ res, ∀ did, e.member = some did → locs did = none) :
    scanEntries pickup maxKm locs res = none := by
  induction res with
  | nil => rfl
  | cons e rest ih =>
    have hrest : ∀ e2 ∈ rest, ∀ did, e2.member = some did → locs did = none :=
      fun e2 he2 did hd => h e2 (List.mem_cons_of_mem e he2) did hd
    cases hm : e.member with
    | none => simp [scanEntries, hm, ih hrest]
    | some did =>
      have hl : locs did = none := h e (List.mem_cons_self e rest) did hm
      simp [scanEntries, hm, hl, ih hrest]

theorem scanEntries_some (pickup : ℝ × ℝ) (maxKm : ℝ)
    (locs : ℤ → Option (ℝ × ℝ)) (res : List GeoEntry) (d : ℤ)
    (h : scanEntries pickup maxKm locs res = some d) :
    (∃ loc, locs d = some loc ∧ haversine_km pickup loc ≤ maxKm) ∧
    firstQualifying pickup maxKm locs res d := by
  induction res with
  | nil => exact absurd h (by simp [scanEntries])
  | cons e rest ih =>
    cases hm : e.member with
    | none =>
      simp only [scanEntries, hm] at h
      obtain ⟨hloc, hfq⟩ := ih h
      exact ⟨hloc, firstQualifying_cons pickup maxKm locs e rest d
        (not_qualifies_member_none pickup maxKm locs e hm) hfq⟩
    | some did =>
      cases hl : locs did with
      | none =>
        simp only [scanEntries, hm, hl] at h
        obtain ⟨hloc, hfq⟩ := ih h
        exact ⟨hloc, firstQualifying_cons pickup maxKm locs e rest d
          (not_qualifies_stale pickup maxKm locs e did hm hl) hfq⟩
      | some loc =>
        simp only [scanEntries, hm, hl] at h
        by_cases hdist : haversine_km pickup loc ≤ maxKm
        · rw [if_pos hdist] at h
          obtain rfl : did = d := Option.some_injective _ h
          exact ⟨⟨loc, hl, hdist⟩, firstQualifying_head pickup maxKm locs e rest did hm
            ⟨did, loc, hm, hl, hdist⟩⟩
        · rw [if_neg hdist] at h
          obtain ⟨hloc, hfq⟩ := ih h
          exact ⟨hloc, firstQualifying_cons pickup maxKm locs e rest d
            (not_qualifies_far pickup maxKm locs e did loc hm hl hdist) hfq⟩

/-- C6: find_nearest_driver returns None on a redis failure, on an empty
index reply, and when every candidate position is stale; and whenever it
returns a driver d, the freshly re-verified position of d is within maxKm of
pickup by Haversine and d is the first qualifying candidate in the
ascending-distance reply order. -/
theorem find_nearest_driver_spec (locs : ℤ → Option (ℝ × ℝ))
    (pickup : ℝ × ℝ) (maxKm : ℝ) :
    (find_nearest_driver none locs pickup maxKm = none) ∧
    (find_nearest_driver (some []) locs pickup maxKm = none) ∧
    (∀ res, (∀ e ∈ res, ∀ did, e.member = some did → locs did = none) →
      find_nearest_driver (some res) locs pickup maxKm = none) ∧
    (∀ res d, find_nearest_driver (some res) locs pickup maxKm = some d →
      (∃ loc, locs d = some loc ∧ haversine_km pickup loc ≤ maxKm) ∧
      firstQualifying pickup maxKm locs res d) := by
  refine ⟨rfl, rfl, ?_, ?_⟩
  · intro res h
    exact scanEntries_stale pickup maxKm locs res h
  · intro res d h
    exact scanEntries_some pickup maxKm locs res d h

/-- C6 witness: with driver 1 cached at the origin and a single-entry reply,
the matcher returns driver 1, whose fresh position is within 5 km of the
origin pickup and who is the first qualifying candidate. -/
theorem find_nearest_driver_spec_witness :
    find_nearest_driver (some [⟨some 1, 0⟩]) demoLocs ((0 : ℝ), (0 : ℝ)) 5 = some 1 ∧
    ((∃ loc, demoLocs 1 = some loc ∧ haversine_km ((0 : ℝ), (0 : ℝ)) loc ≤ 5) ∧
      firstQualifying ((0 : ℝ), (0 : ℝ)) 5 demoLocs [⟨some 1, 0⟩] 1) := by
  have h1 : demoLocs 1 = some ((0 : ℝ), (0 : ℝ)) := by simp [demoLocs]
  have hfind : find_nearest_driver (some [⟨some 1, 0⟩]) demoLocs
      ((0 : ℝ), (0 : ℝ)) 5 = some 1 := by
    show scanEntries ((0 : ℝ), (0 : ℝ)) 5 demoLocs [⟨some 1, 0⟩] = some 1
    rw [scanEntries]
    dsimp only
    rw [h1]
    dsimp only
    rw [haversine_self, if_pos (show (0 : ℝ) ≤ 5 by norm_num)]
  exact ⟨hfind, (find_nearest_driver_spec demoLocs ((0 : ℝ), (0 : ℝ)) 5).2.2.2
    [⟨some 1, 0⟩] 1 hfind⟩

/-- C1: evidence against the claim — when driver discovery reports no driver
(driver_id null) or the discovery call fails, create_ride returns and persists
ride status "searching", not "no_driver", while indeed creating no
assignment. -/
theorem create_ride_no_driver_leaves_searching :
    ((create_ride demoReq none (MatchResult.ok none) emptyDb).1.status = RIDE_SEARCHING) ∧
    ((create_ride demoReq none (MatchResult.ok none) emptyDb).1.status ≠ RIDE_NO_DRIVER) ∧
    ((create_ride demoReq none MatchResult.fail emptyDb).1.status = RIDE_SEARCHING) ∧
    ((create_ride demoReq none (MatchResult.ok none) emptyDb).2.rides =
      [⟨1, some 100, ((0 : ℝ), (0 : ℝ)), ((1 : ℝ), (1 : ℝ)), "standard", "card",
        RIDE_SEARCHING⟩]) ∧
    ((create_ride demoReq none (MatchResult.ok none) emptyDb).2.assignments = []) := by
  refine ⟨rfl, ?_, rfl, rfl, rfl⟩
  intro hcontra
  exact absurd hcontra (by decide)

/-- C4: on every payment record reachable by the operations of the program (created
Pending by end_trip, settled by the worker), the status is Pending or Success;
the worker changes the status only from Pending; a terminal status is never
changed to a different one; and the worker writes Success with the stub
provider response. -/
theorem payment_terminal_stable (p : PaymentRec) (h : PayReachable p) :
    (p.status = PAY_PENDING ∨ p.status = PAY_SUCCESS) ∧
    ((simulate_payment_update p).status ≠ p.status → p.status = PAY_PENDING) ∧
    ((p.status = PAY_SUCCESS ∨ p.status = PAY_FAILED) →
      (simulate_payment_update p).status = p.status) ∧
    (simulate_payment_update p).status = PAY_SUCCESS ∧
    (simulate_payment_update p).provider_response =
      some ⟨"simulated", "pay_" ++ toString p.id⟩ := by
  have hstat : p.status = PAY_PENDING ∨ p.status = PAY_SUCCESS := by
    induction h with
    | created q hq => exact Or.inl hq
    | settled q hq ih => exact Or.inr rfl
  refine ⟨hstat, ?_, ?_, rfl, rfl⟩
  · intro hne
    rcases hstat with h1 | h1
    · exact h1
    · exact absurd (show (simulate_payment_update p).status = p.status by
        rw [h1]; rfl) hne
  · intro hterm
    rcases hterm with h1 | h1
    · rw [h1]; rfl
    · rcases hstat with h2 | h2 <;> rw [h1] at h2 <;> exact absurd h2 (by decide)

/-- C4 witness: the properties instantiated on a freshly created Pending
payment. -/
theorem payment_terminal_stable_witness :
    (demoPayment.status = PAY_PENDING ∨ demoPayment.status = PAY_SUCCESS) ∧
    ((simulate_payment_update demoPayment).status ≠ demoPayment.status →
      demoPayment.status = PAY_PENDING) ∧
    ((demoPayment.status = PAY_SUCCESS ∨ demoPayment.status = PAY_FAILED) →
      (simulate_payment_update demoPayment).status = demoPayment.status) ∧
    (simulate_payment_update demoPayment).status = PAY_SUCCESS ∧
    (simulate_payment_update demoPayment).provider_response =
      some ⟨"simulated", "pay_" ++ toString demoPayment.id⟩ :=
  payment_terminal_stable demoPayment (PayReachable.created demoPayment rfl)

theorem lookupIdem_append_none (l : List (String × RideOut)) (k : String) (v : RideOut)
    (h : lookupIdem l k = none) : lookupIdem (l ++ [(k, v)]) k = some v := by
  induction l with
  | nil => simp [lookupIdem]
  | cons p rest ih =>
    by_cases hk : p.1 = k
    · rw [lookupIdem, if_pos hk] at h
      exact absurd h (by simp)
    · rw [List.cons_append, lookupIdem, if_neg hk]
      rw [lookupIdem, if_neg hk] at h
      exact ih h

theorem create_ride_core_idem_entry (req : RideReq) (k : String) (m : MatchResult)
    (st : DbState) :
    (create_ride_core req (some k) m st).2.idem =
      st.idem ++ [(k, (create_ride_core req (some k) m st).1)] := by
  cases m with
  | fail => rfl
  | ok o =>
    cases o with
    | none => rfl
    | some did =>
      by_cases hd : did = 0
      · simp [create_ride_core, hd]
      · simp [create_ride_core, create_assignment, hd]

/-- C5: create_ride is idempotent in the key — after a first call under a
fresh key k, a second call under k (with any request body and any discovery
outcome) returns the stored response of the first call and changes nothing, in
particular the rides table. -/
theorem create_ride_idempotent (req req2 : RideReq) (k : String) (m m2 : MatchResult)
    (st : DbState) (h : lookupIdem st.idem k = none) :
    create_ride req2 (some k) m2 (create_ride req (some k) m st).2 =
      ((create_ride req (some k) m st).1, (create_ride req (some k) m st).2) ∧
    (create_ride req2 (some k) m2 (create_ride req (some k) m st).2).2.rides =
      (create_ride req (some k) m st).2.rides := by
  have h1 : create_ride req (some k) m st = create_ride_core req (some k) m st := by
    simp only [create_ride, h]
  have h2 : lookupIdem (create_ride req (some k) m st).2.idem k =
      some (create_ride req (some k) m st).1 := by
    rw [h1, create_ride_core_idem_entry req k m st]
    exact lookupIdem_append_none st.idem k _ h
  have hmain : ∀ S : DbState, ∀ out : RideOut, lookupIdem S.idem k = some out →
      create_ride req2 (some k) m2 S = (out, S) := by
    intro S out hS
    simp only [create_ride, hS]
  exact ⟨hmain _ _ h2, by rw [hmain _ _ h2]⟩

/-- C5 witness: idempotent replay at a concrete fresh key on the empty
database. -/
theorem create_ride_idempotent_witness :
    create_ride demoReq (some "key1") (MatchResult.ok none)
        (create_ride demoReq (some "key1") (MatchResult.ok none) emptyDb).2 =
      ((create_ride demoReq (some "key1") (MatchResult.ok none) emptyDb).1,
       (create_ride demoReq (some "key1") (MatchResult.ok none) emptyDb).2) ∧
    (create_ride demoReq (some "key1") (MatchResult.ok none)
        (create_ride demoReq (some "key1") (MatchResult.ok none) emptyDb).2).2.rides =
      (create_ride demoReq (some "key1") (MatchResult.ok none) emptyDb).2.rides :=
  create_ride_idempotent demoReq demoReq "key1" (MatchResult.ok none)
    (MatchResult.ok none) emptyDb rfl

theorem lookupAssign2_wrong_driver (l : List AssignRec) (aid did : ℤ)
    (h : ∀ a ∈ l, a.id = aid → a.driver_id ≠ did) :
    lookupAssign2 l aid did = none := by
  induction l with
  | nil => rfl
  | cons a rest ih =>
    have hc : ¬ (a.id = aid ∧ a.driver_id = did) := by
      rintro ⟨h1, h2⟩
      exact h a (List.mem_cons_self a rest) h1 h2
    rw [lookupAssign2, if_neg hc]
    exact ih fun a2 hm h1 h2 => h a2 (List.mem_cons_of_mem a hm) h1 h2

/-- C7: accept_assignment succeeds exactly when the driver-filtered select
finds the assignment and its status is Offered; on success it returns an
Ongoing trip for the calling driver starting now, appends that trip, marks the
assignment Accepted and leaves the rides table untouched; when the assignment
is absent, held by another driver, or not Offered, it returns None (HTTP 400
in the route) and leaves the whole state unchanged — in particular a
wrong-driver accept leaves the assignment Offered. -/
theorem accept_assignment_spec (st : DbState) (now : ℝ) (did aid : ℤ) :
    (lookupAssign2 st.assignments aid did = none →
      accept_assignment st now did aid = (none, st)) ∧
    (∀ a, lookupAssign2 st.assignments aid did = some a → a.status ≠ ASSIGN_OFFERED →
      accept_assignment st now did aid = (none, st)) ∧
    ((∀ a ∈ st.assignments, a.id = aid → a.driver_id ≠ did) →
      accept_assignment st now did aid = (none, st)) ∧
    (∀ a, lookupAssign2 st.assignments aid did = some a → a.status = ASSIGN_OFFERED →
      ∃ t, (accept_assignment st now did aid).1 = some t ∧
        t.status = TRIP_ONGOING ∧ t.ride_id = a.ride_id ∧ t.driver_id = did ∧
        t.start_at = some now ∧
        (accept_assignment st now did aid).2.trips = st.trips ++ [t] ∧
        (accept_assignment st now did aid).2.assignments =
          updateAssignStatus st.assignments aid ASSIGN_ACCEPTED ∧
        (accept_assignment st now did aid).2.rides = st.rides) := by
  refine ⟨?_, ?_, ?_, ?_⟩
  · intro h
    simp only [accept_assignment, h]
  · intro a ha hs
    simp only [accept_assignment, ha, if_neg hs]
  · intro h
    simp only [accept_assignment, lookupAssign2_wrong_driver st.assignments aid did h]
  · intro a ha hs
    simp only [accept_assignment, ha, if_pos hs]
    exact ⟨_, rfl, rfl, rfl, rfl, rfl, rfl, trivial, trivial⟩

/-- C7 witness: with assignment 1 offered to driver 7, an accept by driver 7
opens an Ongoing trip, and an accept by driver 8 of the same assignment fails,
leaving
the state (hence the Offered assignment) unchanged. -/
theorem accept_assignment_spec_witness :
    (∃ t, (accept_assignment stOffered 0 7 1).1 = some t ∧
      t.status = TRIP_ONGOING ∧ t.ride_id = 1 ∧ t.driver_id = 7 ∧
      t.start_at = some (0 : ℝ) ∧
      (accept_assignment stOffered 0 7 1).2.trips = stOffered.trips ++ [t] ∧
      (accept_assignment stOffered 0 7 1).2.assignments =
        updateAssignStatus stOffered.assignments 1 ASSIGN_ACCEPTED ∧
      (accept_assignment stOffered 0 7 1).2.rides = stOffered.rides) ∧
    accept_assignment stOffered 0 8 1 = (none, stOffered) := by
  constructor
  · exact (accept_assignment_spec stOffered 0 7 1).2.2.2 ⟨1, 1, 7, ASSIGN_OFFERED⟩
      rfl rfl
  · refine (accept_assignment_spec stOffered 0 8 1).2.2.1 ?_
    intro a ha h1
    have : a = ⟨1, 1, 7, ASSIGN_OFFERED⟩ := by
      simpa [stOffered, emptyDb] using ha
    rw [this]
    decide

/-- C2: evidence against the claim — end_trip on an existing trip whose status
is "completed" (not Ongoing) is not rejected with IllegalState: it returns a
trip record and appends a new payment row. -/
theorem end_trip_completed_not_rejected :
    demoCompletedTrip.status ≠ TRIP_ONGOING ∧
    lookupTrip stCompleted.trips 1 = some demoCompletedTrip ∧
    (end_trip stCompleted (fun _ => none) 120 1 none).1 ≠ none ∧
    (end_trip stCompleted (fun _ => none) 120 1 none).2.payments.length =
      stCompleted.payments.length + 1 := by
  have hl : lookupTrip stCompleted.trips 1 = some demoCompletedTrip := rfl
  refine ⟨by decide, hl, ?_, ?_⟩
  · simp only [end_trip, hl]
    simp
  · simp only [end_trip, hl]
    simp [stCompleted]

/-- C3: evidence against the claim — along a trace of operations of the
program itself (create a matched ride, accept, then end the trip twice, which the
unguarded end_trip permits), the completed trip 1 ends up referenced by two
payment rows. -/
theorem completed_trip_two_payments :
    (∃ t, lookupTrip stTrace4.trips 1 = some t ∧ t.status = TRIP_COMPLETED) ∧
    stTrace4.payments.map PaymentRec.trip_id = [1, 1] ∧
    stTrace4.payments.length = 2 := by
  exact ⟨⟨_, rfl, rfl⟩, rfl, rfl⟩

theorem pyInt_eq_floor (x : ℝ) (h : 0 ≤ x) : pyInt x = ⌊x⌋ := if_pos h

theorem lookupTrip_id (l : List TripRec) (i : ℤ) (t : TripRec)
    (h : lookupTrip l i = some t) : t.id = i := by
  induction l with
  | nil => exact absurd h (by simp [lookupTrip])
  | cons r rest ih =>
    by_cases hr : r.id = i
    · rw [lookupTrip, if_pos hr] at h
      obtain rfl : r = t := Option.some_injective _ h
      exact hr
    · rw [lookupTrip, if_neg hr] at h
      exact ih h

theorem lookupTrip_setTrip (l : List TripRec) (i : ℤ) (t t2 : TripRec)
    (h : lookupTrip l i = some t) (hid : t2.id = i) :
    lookupTrip (setTrip l i t2) i = some t2 := by
  induction l with
  | nil => exact absurd h (by simp [lookupTrip])
  | cons r rest ih =>
    by_cases hr : r.id = i
    · rw [setTrip, if_pos hr, lookupTrip, if_pos hid]
    · rw [lookupTrip, if_neg hr] at h
      rw [setTrip, if_neg hr, lookupTrip, if_neg hr]
      exact ih h

/-- C8: for every trip end_trip closes, the stored and returned record has
duration_sec equal to the floor of (now minus start_at) in seconds, fare equal
to 2.0 + distance_km * 1.5 + (duration_sec / 60) * 0.2, and distance_km equal
to the Haversine distance from the fresh cached position of the driver to the
end location when both exist, and to the previous distance_km of the trip
otherwise. -/
theorem end_trip_fare_spec (st : DbState) (cache : ℤ → Option (ℝ × ℝ)) (now : ℝ)
    (tid : ℤ) (el : Option (ℝ × ℝ)) (trip : TripRec) (s : ℝ)
    (htrip : lookupTrip st.trips tid = some trip)
    (hstart : trip.start_at = some s) (hnow : s ≤ now) :
    ∃ t2, (end_trip st cache now tid el).1 = some t2 ∧
      t2.duration_sec = ⌊now - s⌋ ∧
      t2.fare = 2.0 + t2.distance_km * 1.5 + ((⌊now - s⌋ : ℝ) / 60.0) * 0.2 ∧
      (el = none → t2.distance_km = trip.distance_km) ∧
      (∀ e, el = some e → cache trip.driver_id = none →
        t2.distance_km = trip.distance_km) ∧
      (∀ e loc, el = some e → cache trip.driver_id = some loc →
        t2.distance_km = haversine_km loc e) ∧
      lookupTrip (end_trip st cache now tid el).2.trips tid = some t2 := by
  have hdur : pyInt (now - s) = ⌊now - s⌋ :=
    pyInt_eq_floor (now - s) (sub_nonneg.mpr hnow)
  simp only [end_trip, htrip, hstart, hdur]
  refine ⟨_, rfl, rfl, rfl, ?_, ?_, ?_, ?_⟩
  · intro he
    subst he
    rfl
  · intro e he hc
    subst he
    simp only [hc]
  · intro e loc he hc
    subst he
    simp only [hc]
  · exact lookupTrip_setTrip st.trips tid trip _ htrip (lookupTrip_id st.trips tid trip htrip)

/-- C8 witness: closing the ongoing demo trip (started at 0, 3 km recorded)
at time 90 with no end location gives duration floor(90) and the fare formula
on the retained distance. -/
theorem end_trip_fare_spec_witness :
    ∃ t2, (end_trip stOngoing (fun _ => none) 90 1 none).1 = some t2 ∧
      t2.duration_sec = ⌊(90 : ℝ) - 0⌋ ∧
      t2.fare = 2.0 + t2.distance_km * 1.5 + ((⌊(90 : ℝ) - 0⌋ : ℝ) / 60.0) * 0.2 ∧
      ((none : Option (ℝ × ℝ)) = none → t2.distance_km = demoTrip.distance_km) ∧
      (∀ e, (none : Option (ℝ × ℝ)) = some e → (fun _ : ℤ => (none : Option (ℝ × ℝ))) demoTrip.driver_id = none →
        t2.distance_km = demoTrip.distance_km) ∧
      (∀ e loc, (none : Option (ℝ × ℝ)) = some e → (fun _ : ℤ => (none : Option (ℝ × ℝ))) demoTrip.driver_id = some loc →
        t2.distance_km = haversine_km loc e) ∧
      lookupTrip (end_trip stOngoing (fun _ => none) 90 1 none).2.trips 1 = some t2 :=
  end_trip_fare_spec stOngoing (fun _ => none) 90 1 none demoTrip 0 rfl rfl
    (by norm_num)

end GoRide
